import Mathlib

/-!
Verification of the pdf2editable page-content extraction and reconstruction
pipeline.  The Python services (`font_mapper.py`, `ocr_processor.py`,
`pdf_processor.py`, `docx_generator.py`) are shallowly embedded: floats become
rationals, Python lists become `List`, fallible index access becomes
`Except`, and the external OCR / raster backends become explicit function
parameters.
-/

namespace Pdf2Editable

/-! ### Python string helpers

`removeAll pat s` models Python's `s.replace(pat, "")`: every non-overlapping
occurrence of `pat` is removed in one left-to-right pass.  `trimChars`
models `str.strip()`, `splitChar` models `str.split(sep)` for a one-character
separator.  All font names and OSD outputs handled here are ASCII, so Lean's
ASCII `Char.isUpper`/`Char.isLower`/`Char.isWhitespace` agree with Python's
predicates on the relevant inputs. -/

def removeAllAux (pat : List Char) : ℕ → List Char → List Char
  | _, [] => []
  | Nat.succ k, _ :: rest => removeAllAux pat k rest
  | 0, c :: rest =>
    if pat.isPrefixOf (c :: rest) then removeAllAux pat (pat.length - 1) rest
    else c :: removeAllAux pat 0 rest

def removeAll (pat s : List Char) : List Char :=
  if pat.isEmpty then s else removeAllAux pat 0 s

def trimChars (l : List Char) : List Char :=
  ((l.dropWhile Char.isWhitespace).reverse.dropWhile Char.isWhitespace).reverse

def splitChar (sep : Char) : List Char → List (List Char)
  | [] => [[]]
  | c :: rest =>
    match splitChar sep rest with
    | [] => [[]]
    | g :: gs => if c = sep then [] :: g :: gs else (c :: g) :: gs

/-! ### FontMapper (`app/services/font_mapper.py`) -/

/-- `FontMapper.FONT_SUBSTITUTION`, in source order. -/
def FONT_SUBSTITUTION : List (String × String) :=
  [("UTM Avo", "Arial"),
   ("UTM Times", "Times New Roman"),
   ("VNI-Times", "Times New Roman"),
   ("VNI-Helve", "Arial"),
   (".VnTime", "Times New Roman"),
   (".VnArial", "Arial"),
   ("Helvetica", "Arial"),
   ("Helvetica Neue", "Arial"),
   ("SF Pro", "Segoe UI"),
   ("SF Pro Display", "Segoe UI"),
   ("Roboto", "Arial"),
   ("Open Sans", "Arial"),
   ("Lato", "Arial"),
   ("Georgia", "Times New Roman"),
   ("Palatino", "Times New Roman"),
   ("Cambria", "Times New Roman"),
   ("Courier", "Courier New"),
   ("Monaco", "Courier New"),
   ("Consolas", "Courier New")]

/-- `FontMapper.WEB_SAFE_FONTS`. -/
def WEB_SAFE_FONTS : List String :=
  ["Arial", "Times New Roman", "Courier New", "Verdana", "Georgia",
   "Comic Sans MS", "Trebuchet MS", "Arial Black", "Impact"]

/-- The CamelCase heuristic of `FontMapper._clean_font_name`: insert a space
before every uppercase letter that immediately follows a lowercase letter. -/
def camelAux (prev : Char) : List Char → List Char
  | [] => []
  | c :: rest =>
    (if c.isUpper ∧ prev.isLower then [' ', c] else [c]) ++ camelAux c rest

def camelSpace : List Char → List Char
  | [] => []
  | c :: rest => c :: camelAux c rest

/-- `FontMapper._clean_font_name`: strip the style-variant substrings, space
out CamelCase, and strip surrounding whitespace. -/
def clean_font_name (font_name : String) : String :=
  let suffixes : List String := ["-Bold", "-Italic", "-BoldItalic", "-Regular", "MT"]
  let stripped := suffixes.foldl (fun s suf => String.mk (removeAll suf.data s.data)) font_name
  String.mk (trimChars (camelSpace stripped.data))

/-- `FontMapper.map_font`. -/
def map_font (pdf_font_name : String) : String :=
  let clean_name := clean_font_name pdf_font_name
  if WEB_SAFE_FONTS.contains clean_name then clean_name
  else
    match FONT_SUBSTITUTION.lookup clean_name with
    | some v => v
    | none => "Arial"

structure FontInfo where
  original : String
  cleaned : String
  mapped : String
  reason : String
  deriving DecidableEq

/-- `FontMapper.get_font_info`. -/
def get_font_info (pdf_font_name : String) : FontInfo :=
  let mapped := map_font pdf_font_name
  let clean_original := clean_font_name pdf_font_name
  let reason :=
    if clean_original = mapped then "web-safe"
    else if (FONT_SUBSTITUTION.lookup clean_original).isSome then "substituted"
    else "fallback"
  ⟨pdf_font_name, clean_original, mapped, reason⟩

/-! ### Data model (`app/services/pdf_processor.py` dataclasses)

Python floats (coordinates, font sizes, page dimensions) are modelled as
rationals; raw image bytes as `List ℕ`. -/

/-- `pdf_processor.PDFTextBlock`. -/
structure PDFTextBlock where
  text : String
  x0 : ℚ
  y0 : ℚ
  x1 : ℚ
  y1 : ℚ
  font_name : String
  font_size : ℚ
  deriving DecidableEq

/-- `pdf_processor.PDFImage`. -/
structure PDFImage where
  data : List ℕ
  width : ℕ
  height : ℕ
  dpi : ℕ
  format : String
  position : ℚ × ℚ × ℚ × ℚ
  deriving DecidableEq

/-- `pdf_processor.PDFPage`. -/
structure PDFPage where
  page_number : ℤ
  text_blocks : List PDFTextBlock
  images : List PDFImage
  width : ℚ
  height : ℚ
  has_text : Bool
  has_images : Bool
  deriving DecidableEq

/-! ### DOCXGenerator (`app/services/docx_generator.py`)

The generated python-docx document is modelled as the flat list of elements
appended to it, in order: paragraphs (each a list of runs `(text, font,
size-in-points)`), block-level pictures (EMU width plus the optional explicit
EMU height, which this code never passes), and page breaks. -/

inductive DocxElem where
  | para (runs : List (String × String × ℚ))
  | picture (widthEmu : ℤ) (heightEmu : Option ℤ)
  | pageBreak
  deriving DecidableEq

def isPageBreak : DocxElem → Bool
  | DocxElem.pageBreak => true
  | _ => false

/-- python-docx `Inches(x)`: a length of `int(x * 914400)` EMU (the argument
is always nonnegative here, so `int` truncation is `Int.floor`). -/
def Inches (x : ℚ) : ℤ := ⌊x * 914400⌋

/-- Python's `abs` on rationals (kernel-reducible; equal to `|·|` by
`pyAbs_eq_abs`). -/
def pyAbs (x : ℚ) : ℚ := if x < 0 then -x else x


/-- The Python key `lambda b: (b.y0, b.x0)`, as a strict lexicographic
comparison (used by the stable insertion model of `sorted`). -/
def keyLt (a b : PDFTextBlock) : Bool :=
  decide (a.y0 < b.y0 ∨ (a.y0 = b.y0 ∧ a.x0 < b.x0))

/-- Stable insertion: `b` goes before the first element not strictly below it,
so elements with equal keys keep their original relative order, as with
Python's stable `sorted`. -/
def insertBlock (b : PDFTextBlock) : List PDFTextBlock → List PDFTextBlock
  | [] => [b]
  | c :: rest => if keyLt c b then c :: insertBlock b rest else b :: c :: rest

/-- `sorted(text_blocks, key=lambda b: (b.y0, b.x0))`. -/
def sortBlocks (l : List PDFTextBlock) : List PDFTextBlock :=
  l.foldr insertBlock []

/-- The accumulation loop of `DOCXGenerator._group_text_into_paragraphs`:
`curY` is the `y0` of the block that started the current paragraph, `cur` the
current paragraph, `acc` the closed paragraphs. -/
def groupStep (tol : ℚ) (curY : ℚ) (cur : List PDFTextBlock)
    (acc : List (List PDFTextBlock)) : List PDFTextBlock → List (List PDFTextBlock)
  | [] => acc ++ [cur]
  | b :: rest =>
    if pyAbs (b.y0 - curY) ≤ tol then groupStep tol curY (cur ++ [b]) acc rest
    else groupStep tol b.y0 [b] (acc ++ [cur]) rest

/-- `DOCXGenerator._group_text_into_paragraphs` (tolerance default 5.0,
always used at the default by the only call site). -/
def group_text_into_paragraphs (text_blocks : List PDFTextBlock)
    (y_tolerance : ℚ) : List (List PDFTextBlock) :=
  match sortBlocks text_blocks with
  | [] => []
  | b :: rest => groupStep y_tolerance b.y0 [b] [] rest

/-- The width python-docx is asked to render an image at:
`min(Inches(6), Inches(img.width / 72))`. -/
def image_block_width (img : PDFImage) : ℤ :=
  min (Inches 6) (Inches ((img.width : ℚ) / 72))

/-- `DOCXGenerator._add_image_to_document` (success path): the picture at the
computed width — with no explicit height, so the renderer keeps the aspect
ratio — followed by a spacing blank paragraph.  (The source also computes an
`aspect_ratio` local that it never uses.) -/
def add_image_to_document (img : PDFImage) : List DocxElem :=
  [DocxElem.picture (image_block_width img) none, DocxElem.para []]

/-- `DOCXGenerator._add_page_to_document`: the grouped paragraphs (each run
rendered as `block.text + " "` in the mapped font at the block's size), then
every image. -/
def add_page_to_document (page : PDFPage) : List DocxElem :=
  (group_text_into_paragraphs page.text_blocks 5).map
      (fun para =>
        DocxElem.para (para.map
          (fun block => (block.text ++ " ", map_font block.font_name, block.font_size))))
    ++ (page.images.map add_image_to_document).flatten

/-- `DOCXGenerator.create_document`: each page in list order, with a page
break after a page exactly when `page.page_number < len(pages) - 1`. -/
def create_document (pages : List PDFPage) : List DocxElem :=
  (pages.map (fun page =>
    add_page_to_document page ++
      (if page.page_number < (pages.length : ℤ) - 1 then [DocxElem.pageBreak] else []))).flatten

/-- Pages separated by exactly one copy of `sep` between consecutive entries
and nothing after the last: the page-delimiting shape the spec requires. -/
def sepJoin {α : Type} (sep : List α) : List (List α) → List α
  | [] => []
  | [x] => x
  | x :: y :: rest => x ++ sep ++ sepJoin sep (y :: rest)

/-! ### OCRProcessor (`app/services/ocr_processor.py`)

The PIL image is modelled by its size and mode; Tesseract itself
(`pytesseract.image_to_string` and `image_to_osd`) is an explicit parameter:
a function from the preprocessed image to recognized text, and an `Except`
value for the OSD result (`Except.error` standing for any exception raised
while opening, preprocessing or running OSD). -/

structure PILImage where
  width : ℕ
  height : ℕ
  mode : String
  deriving DecidableEq

/-- The `PDFTextBlock` the OCR processor constructs.  `ocr_processor.py`
imports it from `app.models.schemas` (which does not define it in this tree);
the fields are exactly those passed at the construction site. -/
structure OCRTextBlock where
  page_number : ℤ
  text : String
  x0 : ℚ
  y0 : ℚ
  x1 : ℚ
  y1 : ℚ
  font_name : String
  font_size : ℚ
  deriving DecidableEq

/-- Python's `str.strip()`. -/
def pyStrip (s : String) : String := String.mk (trimChars s.data)

/-- `OCRProcessor._preprocess_image`: grayscale, then downscale
proportionally (with `int` truncation) if either dimension exceeds 4000. -/
def preprocess_image (image0 : PILImage) : PILImage :=
  let image := if image0.mode ≠ "L" then { image0 with mode := "L" } else image0
  let maxDim := max image.width image.height
  if 4000 < maxDim then
    let ratio : ℚ := 4000 / maxDim
    { image with
      width := (⌊(image.width : ℚ) * ratio⌋).toNat,
      height := (⌊(image.height : ℚ) * ratio⌋).toNat }
  else image

/-- `OCRProcessor.extract_text_from_image` (success path of the `try`):
preprocess, recognize, return `[]` on whitespace-only text, else a single
full-image block. -/
def extract_text_from_image (image_to_string : PILImage → String)
    (image0 : PILImage) (page_number : ℤ) : List OCRTextBlock :=
  let image := preprocess_image image0
  let text := image_to_string image
  if pyStrip text = "" then []
  else
    [⟨page_number, pyStrip text, 0, 0, (image.width : ℚ), (image.height : ℚ),
      "OCR-Result", 12⟩]

/-- The `script_map` literal in `OCRProcessor.detect_language`. -/
def script_map : List (String × String) :=
  [("Han", "chi_sim"), ("Latin", "eng"), ("Vietnamese", "vie")]

/-- `script_map.get(script, "eng")`. -/
def scriptToLang (script : String) : String :=
  (script_map.lookup script).getD "eng"

/-- `line.split(":")[1].strip()` for a line of the OSD output. -/
def parseScriptLine (line : List Char) : String :=
  String.mk (trimChars ((splitChar ':' line).getD 1 []))

/-- `OCRProcessor.detect_language`: scan the OSD output for the first line
starting with `"Script:"`, map the parsed script through `script_map` with
default `"eng"`; `"eng"` if no such line, and `"eng"` on any failure
(`Except.error`). -/
def detect_language (osd : Except Unit String) : String :=
  match osd with
  | Except.error _ => "eng"
  | Except.ok osdStr =>
    match (splitChar (Char.ofNat 10) osdStr.data).find?
        (fun line => List.isPrefixOf ("Script:".data) line) with
    | some line => scriptToLang (parseScriptLine line)
    | none => "eng"

/-! ### PDFProcessor (`app/services/pdf_processor.py`)

The opened PDF is modelled as the per-page data the two accessors surface:
the pdfplumber word list (already converted to `PDFTextBlock`s, as the
extraction loop does field-by-field) and the PyMuPDF raw image records.
Python list indexing `pages[n]` is `pyGet` (negative indices wrap once;
otherwise out-of-range raises `IndexError`).  The OCR processor attribute is
`none` when disabled, mirroring the source's `None` pattern; when present it
is an abstract function from image bytes and page number to text blocks. -/

inductive PyErr where
  | indexError
  deriving DecidableEq

/-- Python `l[n]` for a list: a nonnegative in-range index reads directly, a
negative index wraps once from the end, anything else raises `IndexError`. -/
def pyGet {α : Type} (l : List α) (n : ℤ) : Except PyErr α :=
  if h : 0 ≤ n ∧ n < (l.length : ℤ) then Except.ok (l.get ⟨n.toNat, by omega⟩)
  else if h2 : n < 0 ∧ 0 ≤ n + (l.length : ℤ) then
    Except.ok (l.get ⟨(n + l.length).toNat, by omega⟩)
  else Except.error PyErr.indexError

/-- One entry of `page.get_images(full=True)` together with the
`doc.extract_image(xref)` payload and the `get_image_bbox` result (`none`
when falsy). -/
structure RawImage where
  data : List ℕ
  width : ℕ
  height : ℕ
  ext : String
  bbox : Option (ℚ × ℚ × ℚ × ℚ)
  deriving DecidableEq

/-- What one PDF page exposes to the two extraction subsystems. -/
structure PageContent where
  words : List PDFTextBlock
  rawImages : List RawImage
  width : ℚ
  height : ℚ
  deriving DecidableEq

/-- `PDFProcessor` state after `__init__`. -/
structure PDFProcessor where
  pages : List PageContent
  enable_ocr : Bool
  ocr_processor : Option (List ℕ → ℤ → List PDFTextBlock)

/-- The body of the image-extraction loop: package a raw image with the
default 72 DPI and the bbox fallback `(0, 0, 0, 0)`. -/
def convertImage (r : RawImage) : PDFImage :=
  ⟨r.data, r.width, r.height, 72, r.ext, r.bbox.getD (0, 0, 0, 0)⟩

/-- `max(images, key=lambda img: img.width * img.height)`: the first
maximal-area image (strict improvement replaces, ties keep the earlier). -/
def maxByArea (best : PDFImage) : List PDFImage → PDFImage
  | [] => best
  | i :: rest =>
    maxByArea (if best.width * best.height < i.width * i.height then i else best) rest

/-- `PDFProcessor.extract_images`. -/
def extract_images (p : PDFProcessor) (page_number : ℤ) :
    Except PyErr (List PDFImage) :=
  if (p.pages.length : ℤ) ≤ page_number then Except.ok []
  else
    match pyGet p.pages page_number with
    | Except.error e => Except.error e
    | Except.ok page => Except.ok (page.rawImages.map convertImage)

/-- `PDFProcessor.extract_text_blocks`: the pdfplumber words of the page;
when that is empty and OCR is enabled and constructed, OCR on the
largest-area extracted image replaces the (empty) result, unless the page
has no images.  The `page_number >= len(pdf.pages)` guard returns `[]`
before the OCR fallback is reached. -/
def extract_text_blocks (p : PDFProcessor) (page_number : ℤ) :
    Except PyErr (List PDFTextBlock) :=
  if (p.pages.length : ℤ) ≤ page_number then Except.ok []
  else
    match pyGet p.pages page_number with
    | Except.error e => Except.error e
    | Except.ok page =>
      if page.words.isEmpty && p.enable_ocr then
        match p.ocr_processor with
        | none => Except.ok page.words
        | some ocr =>
          match extract_images p page_number with
          | Except.error e => Except.error e
          | Except.ok [] => Except.ok page.words
          | Except.ok (i :: rest) =>
            Except.ok (ocr (maxByArea i rest).data page_number)
      else Except.ok page.words

/-- `PDFProcessor.process_page`: text blocks, images, then the page
dimensions via the unguarded `pdf.pages[page_number]`. -/
def process_page (p : PDFProcessor) (page_number : ℤ) : Except PyErr PDFPage :=
  match extract_text_blocks p page_number with
  | Except.error e => Except.error e
  | Except.ok text_blocks =>
    match extract_images p page_number with
    | Except.error e => Except.error e
    | Except.ok images =>
      match pyGet p.pages page_number with
      | Except.error e => Except.error e
      | Except.ok page =>
        Except.ok ⟨page_number, text_blocks, images, page.width, page.height,
          !text_blocks.isEmpty, !images.isEmpty⟩

/-- A text run with a given `y0`, used to state the spec's concrete grouping
examples. -/
def mkBlock (y : ℚ) : PDFTextBlock := ⟨"", 0, y, 0, 0, "Arial", 12⟩

lemma pyAbs_eq_abs (x : ℚ) : pyAbs x = |x| := by
  by_cases h : x < 0
  · simp [pyAbs, h, abs_of_neg h]
  · simp [pyAbs, h, abs_of_nonneg (le_of_not_lt h)]

lemma insertBlock_perm (b : PDFTextBlock) (l : List PDFTextBlock) :
    (insertBlock b l).Perm (b :: l) := by
  induction l with
  | nil => exact List.Perm.refl _
  | cons c rest ih =>
    by_cases h : keyLt c b = true
    · simpa [insertBlock, h] using (ih.cons c).trans (List.Perm.swap b c rest)
    · simp only [insertBlock, h, if_false]
      exact List.Perm.refl _

lemma sortBlocks_perm (l : List PDFTextBlock) : (sortBlocks l).Perm l := by
  induction l with
  | nil => exact List.Perm.refl _
  | cons x rest ih =>
    exact (insertBlock_perm x (sortBlocks rest)).trans (ih.cons x)

lemma groupStep_flatten (tol : ℚ) (l : List PDFTextBlock) :
    ∀ (curY : ℚ) (cur : List PDFTextBlock) (acc : List (List PDFTextBlock)),
      (groupStep tol curY cur acc l).flatten = acc.flatten ++ cur ++ l := by
  induction l with
  | nil => intro curY cur acc; simp [groupStep]
  | cons b rest ih =>
    intro curY cur acc
    by_cases h : pyAbs (b.y0 - curY) ≤ tol
    · simp [groupStep, h, ih]
    · simp [groupStep, h, ih]

lemma groupStep_ne_nil (tol : ℚ) (l : List PDFTextBlock) :
    ∀ (curY : ℚ) (cur : List PDFTextBlock) (acc : List (List PDFTextBlock)),
      cur ≠ [] → (∀ g ∈ acc, g ≠ []) →
      ∀ g ∈ groupStep tol curY cur acc l, g ≠ [] := by
  induction l with
  | nil =>
    intro curY cur acc hcur hacc g hg
    simp only [groupStep, List.mem_append, List.mem_singleton] at hg
    rcases hg with hg | hg
    · exact hacc g hg
    · subst hg; exact hcur
  | cons b rest ih =>
    intro curY cur acc hcur hacc g hg
    by_cases h : pyAbs (b.y0 - curY) ≤ tol
    · simp only [groupStep, h, if_true] at hg
      exact ih curY (cur ++ [b]) acc (by simp) hacc g hg
    · simp only [groupStep, h, if_false] at hg
      refine ih b.y0 [b] (acc ++ [cur]) (by simp) ?_ g hg
      intro g' hg'
      rcases List.mem_append.mp hg' with hg' | hg'
      · exact hacc g' hg'
      · rw [List.mem_singleton.mp hg']; exact hcur

lemma groupStep_anchor (tol : ℚ) (ht : 0 ≤ tol) (l : List PDFTextBlock) :
    ∀ (curY : ℚ) (cur : List PDFTextBlock) (acc : List (List PDFTextBlock))
      (a : PDFTextBlock),
      cur.head? = some a → a.y0 = curY →
      (∀ b ∈ cur, pyAbs (b.y0 - curY) ≤ tol) →
      (∀ g ∈ acc, ∃ x, g.head? = some x ∧ ∀ b ∈ g, pyAbs (b.y0 - x.y0) ≤ tol) →
      ∀ g ∈ groupStep tol curY cur acc l,
        ∃ x, g.head? = some x ∧ ∀ b ∈ g, pyAbs (b.y0 - x.y0) ≤ tol := by
  induction l with
  | nil =>
    intro curY cur acc a hhead hay hcur hacc g hg
    simp only [groupStep, List.mem_append, List.mem_singleton] at hg
    rcases hg with hg | hg
    · exact hacc g hg
    · subst hg
      exact ⟨a, hhead, fun b hb => by rw [hay]; exact hcur b hb⟩
  | cons b rest ih =>
    intro curY cur acc a hhead hay hcur hacc g hg
    by_cases h : pyAbs (b.y0 - curY) ≤ tol
    · simp only [groupStep, h, if_true] at hg
      rcases cur with _ | ⟨c, cur'⟩
      · simp at hhead
      · have hca : c = a := by simpa using hhead
        subst hca
        refine ih curY ((c :: cur') ++ [b]) acc c rfl hay ?_ hacc g hg
        intro x hx
        rcases List.mem_append.mp hx with hx | hx
        · exact hcur x hx
        · rw [List.mem_singleton.mp hx]; exact h
    · simp only [groupStep, h, if_false] at hg
      refine ih b.y0 [b] (acc ++ [cur]) b rfl rfl ?_ ?_ g hg
      · intro x hx
        rw [List.mem_singleton.mp hx]
        simpa [pyAbs] using ht
      · intro g' hg'
        rcases List.mem_append.mp hg' with hg' | hg'
        · exact hacc g' hg'
        · rw [List.mem_singleton.mp hg']
          exact ⟨a, hhead, fun x hx => by rw [hay]; exact hcur x hx⟩

/-- C4: paragraph grouping anchors each paragraph at the `y0` of the run that
started it — every run in a produced group is within tolerance 5 of the
group's first run — and the spec's two concrete examples behave as stated:
`y0` values `[0, 1, 2, 50]` give two paragraphs `[0, 1, 2]` and `[50]`, and
`[0, 6, 12]` give three singleton paragraphs (the anchor does not drift). -/
theorem paragraph_grouping_anchor :
    (∀ (blocks : List PDFTextBlock) (g : List PDFTextBlock),
        g ∈ group_text_into_paragraphs blocks 5 →
        ∃ a, g.head? = some a ∧ ∀ b ∈ g, |b.y0 - a.y0| ≤ 5) ∧
      group_text_into_paragraphs [mkBlock 0, mkBlock 1, mkBlock 2, mkBlock 50] 5 =
        [[mkBlock 0, mkBlock 1, mkBlock 2], [mkBlock 50]] ∧
      group_text_into_paragraphs [mkBlock 0, mkBlock 6, mkBlock 12] 5 =
        [[mkBlock 0], [mkBlock 6], [mkBlock 12]] := by
  refine ⟨?_,
    by norm_num [group_text_into_paragraphs, sortBlocks, insertBlock, keyLt, mkBlock,
      groupStep, pyAbs],
    by norm_num [group_text_into_paragraphs, sortBlocks, insertBlock, keyLt, mkBlock,
      groupStep, pyAbs]⟩
  intro blocks g hg
  cases hs : sortBlocks blocks with
  | nil => simp [group_text_into_paragraphs, hs] at hg
  | cons b rest =>
    simp only [group_text_into_paragraphs, hs] at hg
    have h := groupStep_anchor 5 (by norm_num) rest b.y0 [b] [] b rfl rfl
      (by intro x hx; rw [List.mem_singleton.mp hx]; simp [pyAbs]) (by simp) g hg
    simpa only [pyAbs_eq_abs] using h

/-- Witness for C4 at the one-block input `[mkBlock 0]`. -/
theorem paragraph_grouping_anchor_witness :
    ∃ a, ([mkBlock 0] : List PDFTextBlock).head? = some a ∧
      ∀ b ∈ ([mkBlock 0] : List PDFTextBlock), |b.y0 - a.y0| ≤ 5 :=
  paragraph_grouping_anchor.1 [mkBlock 0] [mkBlock 0]
    (by norm_num [group_text_into_paragraphs, sortBlocks, insertBlock, groupStep])

/-- C9: for every tolerance and every list of text runs, the paragraph groups
are a partition of the `(y0, x0)`-sorted input: their concatenation is exactly
the sorted sequence (which is a permutation of the input — nothing dropped or
duplicated), and every group is non-empty. -/
theorem paragraph_grouping_partition (tol : ℚ) (blocks : List PDFTextBlock) :
    (group_text_into_paragraphs blocks tol).flatten = sortBlocks blocks ∧
      (sortBlocks blocks).Perm blocks ∧
      ∀ g ∈ group_text_into_paragraphs blocks tol, g ≠ [] := by
  refine ⟨?_, sortBlocks_perm blocks, ?_⟩
  · cases hs : sortBlocks blocks with
    | nil => simp [group_text_into_paragraphs, hs]
    | cons b rest =>
      simp only [group_text_into_paragraphs, hs]
      rw [groupStep_flatten]
      simp
  · cases hs : sortBlocks blocks with
    | nil => simp [group_text_into_paragraphs, hs]
    | cons b rest =>
      simp only [group_text_into_paragraphs, hs]
      exact groupStep_ne_nil tol rest b.y0 [b] [] (by simp) (by simp)

/-- Witness for C9's bounded-quantifier conjunct at a concrete input. -/
theorem paragraph_grouping_partition_witness :
    ([mkBlock 3] : List PDFTextBlock) ≠ [] :=
  (paragraph_grouping_partition 5 [mkBlock 3]).2.2 [mkBlock 3]
    (by norm_num [group_text_into_paragraphs, sortBlocks, insertBlock, groupStep])

/-- C3 (counterexample): the claim fails on the code. `("Georgia", "Times New
Roman")` is an entry of the substitution table, yet `map_font "Georgia"`
returns `"Georgia"` (the web-safe check fires first) and the reported reason
is `"web-safe"`; likewise `".VnTime"` cleans to `".Vn Time"`, misses the
table, and falls back to `"Arial"` with reason `"fallback"`. -/
theorem font_substitution_claim_counterexample :
    ("Georgia", "Times New Roman") ∈ FONT_SUBSTITUTION ∧
      map_font "Georgia" ≠ "Times New Roman" ∧
      map_font "Georgia" = "Georgia" ∧
      (get_font_info "Georgia").reason = "web-safe" ∧
      (".VnTime", "Times New Roman") ∈ FONT_SUBSTITUTION ∧
      map_font ".VnTime" = "Arial" ∧
      (get_font_info ".VnTime").reason = "fallback" := by
  decide

/-- C3 (amended): for every entry `(k, v)` of the substitution table other
than `"Georgia"` (already web-safe, returned unchanged) and `".VnTime"` /
`".VnArial"` (whose cleaned forms `".Vn Time"` / `".Vn Arial"` miss the table
and fall back to `"Arial"`), `map_font k = v` and `get_font_info k` reports
reason `"substituted"`. -/
theorem font_substitution_amended :
    ∀ kv ∈ FONT_SUBSTITUTION,
      kv.1 ∉ (["Georgia", ".VnTime", ".VnArial"] : List String) →
        map_font kv.1 = kv.2 ∧ (get_font_info kv.1).reason = "substituted" := by
  decide

/-- Witness for C3's amended theorem at the concrete entry `("Helvetica",
"Arial")`. -/
theorem font_substitution_amended_witness :
    map_font "Helvetica" = "Arial" ∧
      (get_font_info "Helvetica").reason = "substituted" :=
  font_substitution_amended ("Helvetica", "Arial") (by decide) (by decide)


/-! ### Remaining helper lemmas -/

lemma add_page_no_break (page : PDFPage) :
    ∀ e ∈ add_page_to_document page, isPageBreak e = false := by
  intro e he
  simp only [add_page_to_document, List.mem_append, List.mem_map,
    List.mem_flatten] at he
  rcases he with ⟨para, _, rfl⟩ | ⟨l, ⟨img, _, rfl⟩, hel⟩
  · rfl
  · simp only [add_image_to_document, List.mem_cons, List.mem_singleton] at hel
    rcases hel with rfl | rfl | h
    · rfl
    · rfl
    · simp at h

lemma sepJoin_countP (L : List (List DocxElem)) :
    (∀ x ∈ L, ∀ e ∈ x, isPageBreak e = false) →
    (sepJoin [DocxElem.pageBreak] L).countP isPageBreak = L.length - 1 := by
  induction L with
  | nil => intro _; simp [sepJoin]
  | cons x rest ih =>
    intro h
    have hx : x.countP isPageBreak = 0 :=
      List.countP_eq_zero.mpr (fun e he => by simp [h x (by simp) e he])
    cases rest with
    | nil => simp [sepJoin, hx]
    | cons y rest2 =>
      have ih2 := ih (fun g hg e heg => h g (List.mem_cons_of_mem x hg) e heg)
      show (x ++ [DocxElem.pageBreak] ++ sepJoin [DocxElem.pageBreak] (y :: rest2)).countP
          isPageBreak = (x :: y :: rest2).length - 1
      rw [List.countP_append, List.countP_append, hx, ih2]
      simp [isPageBreak, List.countP_cons]
      omega

lemma createAux (L : ℤ) : ∀ (l : List PDFPage),
    (∀ i (hi : i < l.length), (l.get ⟨i, hi⟩).page_number = L - l.length + i) →
    (l.map (fun page => add_page_to_document page ++
        (if page.page_number < L - 1 then [DocxElem.pageBreak] else []))).flatten
      = sepJoin [DocxElem.pageBreak] (l.map add_page_to_document) := by
  intro l
  induction l with
  | nil => intro _; simp [sepJoin]
  | cons p rest ih =>
    intro h
    cases rest with
    | nil =>
      have hp : p.page_number =
          L - (([p] : List PDFPage).length : ℤ) + ((0 : ℕ) : ℤ) := h 0 (by simp)
      have hnlt : ¬ p.page_number < L - 1 := by
        simp only [List.length_cons, List.length_nil] at hp
        push_cast at hp
        omega
      simp [sepJoin, hnlt]
    | cons q rest2 =>
      have hp : p.page_number =
          L - ((p :: q :: rest2).length : ℤ) + ((0 : ℕ) : ℤ) := h 0 (by simp)
      have hp2 : p.page_number = L - ((rest2.length : ℤ) + 2) := by
        simp only [List.length_cons] at hp
        push_cast at hp
        omega
      have hlt : p.page_number < L - 1 := by omega
      have h2 : ∀ i (hi : i < (q :: rest2).length),
          ((q :: rest2).get ⟨i, hi⟩).page_number = L - (q :: rest2).length + i := by
        intro i hi
        have hi2 : i + 1 < (p :: q :: rest2).length := by
          simp only [List.length_cons] at hi ⊢
          omega
        have hh : ((q :: rest2).get ⟨i, hi⟩).page_number =
            L - ((p :: q :: rest2).length : ℤ) + ((i + 1 : ℕ) : ℤ) := h (i + 1) hi2
        rw [hh]
        simp only [List.length_cons]
        push_cast
        ring
      have ih2 := ih h2
      show (add_page_to_document p ++
          (if p.page_number < L - 1 then [DocxElem.pageBreak] else [])) ++
          (List.map (fun page => add_page_to_document page ++
            (if page.page_number < L - 1 then [DocxElem.pageBreak] else []))
            (q :: rest2)).flatten
        = sepJoin [DocxElem.pageBreak]
            (add_page_to_document p :: List.map add_page_to_document (q :: rest2))
      rw [if_pos hlt, ih2]
      simp [List.map_cons, sepJoin, List.append_assoc]

lemma Inches_mono {x y : ℚ} (h : x ≤ y) : Inches x ≤ Inches y :=
  Int.floor_le_floor (mul_le_mul_of_nonneg_right h (by norm_num))

lemma le_maxByArea (l : List PDFImage) : ∀ best : PDFImage,
    best.width * best.height ≤
      (maxByArea best l).width * (maxByArea best l).height := by
  induction l with
  | nil => intro best; exact le_refl _
  | cons i rest ih =>
    intro best
    simp only [maxByArea]
    by_cases h : best.width * best.height < i.width * i.height
    · simp only [if_pos h]; exact le_trans (le_of_lt h) (ih i)
    · simp only [if_neg h]; exact ih best

lemma mem_le_maxByArea (l : List PDFImage) : ∀ best j : PDFImage, j ∈ l →
    j.width * j.height ≤
      (maxByArea best l).width * (maxByArea best l).height := by
  induction l with
  | nil => intro best j hj; simp at hj
  | cons i rest ih =>
    intro best j hj
    simp only [maxByArea]
    rcases List.mem_cons.mp hj with rfl | hj2
    · by_cases h : best.width * best.height < j.width * j.height
      · simp only [if_pos h]; exact le_maxByArea rest j
      · simp only [if_neg h]; exact le_trans (le_of_not_lt h) (le_maxByArea rest best)
    · exact ih _ j hj2

lemma pyGet_oob (p : PDFProcessor) (n : ℤ) (h : (p.pages.length : ℤ) ≤ n) :
    pyGet p.pages n = Except.error PyErr.indexError := by
  simp only [pyGet]
  rw [dif_neg (by omega), dif_neg (by omega)]

/-! ### Claim theorems for the PDF processor and assembler -/

/-- C1: on an in-range page with OCR enabled and constructed, if the page's
native word list is empty and its converted image list is non-empty then
`extract_text_blocks` returns exactly the OCR output on the first
largest-area image; if the native word list is non-empty the result is that
word list, untouched by OCR (the OCR function does not occur in it).  The
final conjunct shows `maxByArea` indeed maximizes `width * height`. -/
theorem extract_text_blocks_ocr_fallback
    (p : PDFProcessor) (n : ℤ) (f : List ℕ → ℤ → List PDFTextBlock)
    (page : PageContent)
    (hen : p.enable_ocr = true)
    (hocr : p.ocr_processor = some f)
    (hrange : ¬ (p.pages.length : ℤ) ≤ n)
    (hpage : pyGet p.pages n = Except.ok page) :
    (page.words ≠ [] → extract_text_blocks p n = Except.ok page.words) ∧
      (∀ (i : PDFImage) (rest : List PDFImage),
        page.words = [] → page.rawImages.map convertImage = i :: rest →
        extract_text_blocks p n = Except.ok (f (maxByArea i rest).data n)) ∧
      (∀ (i : PDFImage) (rest : List PDFImage) (j : PDFImage), j ∈ i :: rest →
        j.width * j.height ≤
          (maxByArea i rest).width * (maxByArea i rest).height) := by
  refine ⟨?_, ?_, ?_⟩
  · intro hw
    have hne : page.words.isEmpty = false := by
      cases hwords : page.words with
      | nil => exact absurd hwords hw
      | cons a l => rfl
    simp [extract_text_blocks, if_neg hrange, hpage, hne]
  · intro i rest hw himg
    have himgs : extract_images p n = Except.ok (i :: rest) := by
      simp [extract_images, if_neg hrange, hpage, himg]
    simp [extract_text_blocks, if_neg hrange, hpage, hw, hen, hocr, himgs]
  · intro i rest j hj
    rcases List.mem_cons.mp hj with rfl | hj2
    · exact le_maxByArea rest j
    · exact mem_le_maxByArea rest i j hj2

/-- Witness for C1: a one-page scanned document (no words, one raw image)
with a constant OCR function; the fallback returns the OCR output. -/
theorem extract_text_blocks_ocr_fallback_witness :
    extract_text_blocks
        (⟨[⟨[], [⟨[7, 7], 10, 10, "png", none⟩], 612, 792⟩], true,
          some (fun _ _ => [⟨"ocr", 0, 0, 0, 0, "OCR-Result", 12⟩])⟩ : PDFProcessor)
        0 =
      Except.ok [⟨"ocr", 0, 0, 0, 0, "OCR-Result", 12⟩] :=
  (extract_text_blocks_ocr_fallback
      ⟨[⟨[], [⟨[7, 7], 10, 10, "png", none⟩], 612, 792⟩], true,
        some (fun _ _ => [⟨"ocr", 0, 0, 0, 0, "OCR-Result", 12⟩])⟩
      0 (fun _ _ => [⟨"ocr", 0, 0, 0, 0, "OCR-Result", 12⟩])
      ⟨[], [⟨[7, 7], 10, 10, "png", none⟩], 612, 792⟩
      rfl rfl (by norm_num) rfl).2.1
    (convertImage ⟨[7, 7], 10, 10, "png", none⟩) [] rfl rfl

/-- C5 (code evaluation): for a page index at or beyond the page count, the
guarded subsystems `extract_text_blocks` and `extract_images` do return empty
lists, but `process_page` — which builds the `PDFPage` — hits the unguarded
`pdf.pages[page_number]` when reading the page dimensions and raises
`IndexError` instead of returning an empty extraction. -/
theorem process_page_out_of_range (p : PDFProcessor) (n : ℤ)
    (h : (p.pages.length : ℤ) ≤ n) :
    extract_text_blocks p n = Except.ok [] ∧
      extract_images p n = Except.ok [] ∧
      process_page p n = Except.error PyErr.indexError := by
  have h1 : extract_text_blocks p n = Except.ok [] := by
    simp [extract_text_blocks, if_pos h]
  have h2 : extract_images p n = Except.ok [] := by
    simp [extract_images, if_pos h]
  refine ⟨h1, h2, ?_⟩
  simp [process_page, h1, h2, pyGet_oob p n h]

/-- Witness for C5: index 1 on a one-page document. -/
theorem process_page_out_of_range_witness :
    extract_text_blocks (⟨[⟨[], [], 612, 792⟩], false, none⟩ : PDFProcessor) 1 =
        Except.ok [] ∧
      extract_images (⟨[⟨[], [], 612, 792⟩], false, none⟩ : PDFProcessor) 1 =
        Except.ok [] ∧
      process_page (⟨[⟨[], [], 612, 792⟩], false, none⟩ : PDFProcessor) 1 =
        Except.error PyErr.indexError :=
  process_page_out_of_range ⟨[⟨[], [], 612, 792⟩], false, none⟩ 1 (by norm_num)

/-- C10: a negative index such as `-1` passes the `page_number >=
len(pdf.pages)` guard on a non-empty document, and both extractors return the
content of the page counted from the end (Python wrap-around indexing) — the
last page here — rather than an empty extraction. -/
theorem negative_index_wraps (p : PDFProcessor) (hne : p.pages ≠ []) :
    ¬ ((p.pages.length : ℤ) ≤ (-1 : ℤ)) ∧
      pyGet p.pages (-1 : ℤ) = Except.ok (p.pages.getLast hne) ∧
      extract_images p (-1 : ℤ) =
        Except.ok ((p.pages.getLast hne).rawImages.map convertImage) ∧
      ((p.pages.getLast hne).words ≠ [] →
        extract_text_blocks p (-1 : ℤ) =
          Except.ok ((p.pages.getLast hne).words)) := by
  have hlen : 0 < p.pages.length := List.length_pos.mpr hne
  have hr : ¬ ((p.pages.length : ℤ) ≤ (-1 : ℤ)) := by omega
  have hget : pyGet p.pages (-1 : ℤ) = Except.ok (p.pages.getLast hne) := by
    simp only [pyGet]
    rw [dif_neg (by omega), dif_pos (show (-1 : ℤ) < 0 ∧
      (0 : ℤ) ≤ -1 + (p.pages.length : ℤ) by constructor <;> omega)]
    have htn : ((-1 : ℤ) + (p.pages.length : ℤ)).toNat = p.pages.length - 1 := by
      omega
    simp only [htn]
    rw [List.getLast_eq_get]
  refine ⟨hr, hget, ?_, ?_⟩
  · simp [extract_images, if_neg hr, hget]
  · intro hw
    have hne2 : (p.pages.getLast hne).words.isEmpty = false := by
      cases hwords : (p.pages.getLast hne).words with
      | nil => exact absurd hwords hw
      | cons a l => rfl
    simp [extract_text_blocks, if_neg hr, hget, hne2]

/-- Witness for C10: index `-1` on a one-page document whose page has one
word returns that page's word list. -/
theorem negative_index_wraps_witness :
    extract_text_blocks
        (⟨[⟨[⟨"hi", 1, 2, 3, 4, "Helvetica", 10⟩], [], 612, 792⟩], false, none⟩ :
          PDFProcessor) (-1 : ℤ) =
      Except.ok [⟨"hi", 1, 2, 3, 4, "Helvetica", 10⟩] :=
  (negative_index_wraps
      ⟨[⟨[⟨"hi", 1, 2, 3, 4, "Helvetica", 10⟩], [], 612, 792⟩], false, none⟩
      (List.cons_ne_nil _ _)).2.2.2 (List.cons_ne_nil _ _)

/-- C6: OCR recognition returns `[]` exactly when the recognized text is
empty after stripping whitespace, and otherwise exactly one text run with
`font_name = "OCR-Result"`, `font_size = 12` and bbox `(0, 0, width, height)`
in pixel units of the preprocessed (grayscaled, possibly downscaled) image. -/
theorem ocr_extract_single_block (image_to_string : PILImage → String)
    (image0 : PILImage) (page_number : ℤ) :
    (pyStrip (image_to_string (preprocess_image image0)) = "" →
        extract_text_from_image image_to_string image0 page_number = []) ∧
      (pyStrip (image_to_string (preprocess_image image0)) ≠ "" →
        extract_text_from_image image_to_string image0 page_number =
          [⟨page_number, pyStrip (image_to_string (preprocess_image image0)),
            0, 0, ((preprocess_image image0).width : ℚ),
            ((preprocess_image image0).height : ℚ), "OCR-Result", 12⟩]) := by
  constructor
  · intro h; simp [extract_text_from_image, h]
  · intro h; simp [extract_text_from_image, h]

/-- Witness for C6 at a concrete image and recognizer. -/
theorem ocr_extract_single_block_witness :
    extract_text_from_image (fun _ => " hi ") ⟨100, 50, "RGB"⟩ 0 =
      [⟨0, pyStrip ((fun (_ : PILImage) => " hi ") (preprocess_image ⟨100, 50, "RGB"⟩)),
        0, 0, ((preprocess_image ⟨100, 50, "RGB"⟩).width : ℚ),
        ((preprocess_image ⟨100, 50, "RGB"⟩).height : ℚ), "OCR-Result", 12⟩] :=
  (ocr_extract_single_block (fun _ => " hi ") ⟨100, 50, "RGB"⟩ 0).2 (by decide)

/-- C7: the image width written to the document is
`min(Inches(6), Inches(width_px / 72))`, with no separately constrained
explicit height (the picture is emitted with `none` for height, so the
renderer preserves aspect ratio); a 720-pixel-wide (or wider) image is capped
at 6 inches and a 360-pixel-wide image gets 5 inches. -/
theorem image_width_scaling :
    (∀ img : PDFImage,
        add_image_to_document img =
          [DocxElem.picture (min (Inches 6) (Inches ((img.width : ℚ) / 72))) none,
            DocxElem.para []]) ∧
      (∀ img : PDFImage, 720 ≤ img.width → image_block_width img = Inches 6) ∧
      (∀ img : PDFImage, img.width = 360 → image_block_width img = Inches 5) := by
  refine ⟨fun img => rfl, ?_, ?_⟩
  · intro img h
    have h6 : (6 : ℚ) ≤ (img.width : ℚ) / 72 := by
      rw [le_div_iff₀ (by norm_num)]
      have h720 : (720 : ℚ) ≤ (img.width : ℚ) := by exact_mod_cast h
      linarith
    exact min_eq_left (Inches_mono h6)
  · intro img h
    have h5 : ((img.width : ℕ) : ℚ) / 72 = 5 := by rw [h]; norm_num
    simp only [image_block_width, h5]
    exact min_eq_right (Inches_mono (by norm_num))

/-- Witness for C7: a 721-pixel-wide image is capped at 6 inches, a
360-pixel-wide image gets 5 inches. -/
theorem image_width_scaling_witness :
    image_block_width ⟨[], 721, 960, 72, "png", (0, 0, 0, 0)⟩ = Inches 6 ∧
      image_block_width ⟨[], 360, 480, 72, "png", (0, 0, 0, 0)⟩ = Inches 5 :=
  ⟨image_width_scaling.2.1 ⟨[], 721, 960, 72, "png", (0, 0, 0, 0)⟩ (by norm_num),
    image_width_scaling.2.2 ⟨[], 360, 480, 72, "png", (0, 0, 0, 0)⟩ rfl⟩

/-- C8 (counterexample): the claim says every detected script other than Han
and Latin yields the default Latin code, but the table also contains
`"Vietnamese" -> "vie"`: on OSD output `"Script: Vietnamese"` the code
returns `"vie"`, not `"eng"`. -/
theorem detect_language_vietnamese_counterexample :
    detect_language (Except.ok "Script: Vietnamese") = "vie" ∧
      ("vie" : String) ≠ "eng" := by
  exact ⟨by decide, by decide⟩

/-- C8 (amended): `detect_language` maps Han to `"chi_sim"`, Latin to
`"eng"`, and also Vietnamese to `"vie"`; every script outside the three-entry
table falls back to `"eng"`, as do an OSD output without a `Script:` line and
any failure (`Except.error`). -/
theorem detect_language_amended :
    detect_language (Except.error ()) = "eng" ∧
      detect_language
        (Except.ok "Page number: 0\nScript: Han\nScript confidence: 1.0") =
        "chi_sim" ∧
      detect_language (Except.ok "Script: Latin") = "eng" ∧
      detect_language (Except.ok "Script: Vietnamese") = "vie" ∧
      detect_language (Except.ok "Orientation in degrees: 0") = "eng" ∧
      (∀ s : String, s ≠ "Han" → s ≠ "Latin" → s ≠ "Vietnamese" →
        scriptToLang s = "eng") := by
  refine ⟨by decide, by decide, by decide, by decide, by decide, ?_⟩
  intro s h1 h2 h3
  have e1 : (s == "Han") = false := beq_eq_false_iff_ne.mpr h1
  have e2 : (s == "Latin") = false := beq_eq_false_iff_ne.mpr h2
  have e3 : (s == "Vietnamese") = false := beq_eq_false_iff_ne.mpr h3
  simp [scriptToLang, script_map, List.lookup, e1, e2, e3]

/-- Witness for C8's universally quantified fallback conjunct at the script
`"Cyrillic"`. -/
theorem detect_language_amended_witness : scriptToLang "Cyrillic" = "eng" :=
  detect_language_amended.2.2.2.2.2 "Cyrillic" (by decide) (by decide) (by decide)

/-- C2: for a non-empty page list numbered `0, 1, ...` in order (as
`process_all_pages` produces), the generated document is exactly the page
renderings in input order separated by single page breaks — every page
appears exactly once, empty pages included, with no break after the last
page — and the number of page-break markers is `len(pages) - 1`. -/
theorem create_document_page_structure (pages : List PDFPage)
    (_hne : pages ≠ [])
    (hnum : ∀ i (hi : i < pages.length), (pages.get ⟨i, hi⟩).page_number = i) :
    create_document pages =
        sepJoin [DocxElem.pageBreak] (pages.map add_page_to_document) ∧
      (create_document pages).countP isPageBreak = pages.length - 1 := by
  have he : create_document pages =
      sepJoin [DocxElem.pageBreak] (pages.map add_page_to_document) := by
    unfold create_document
    refine createAux (pages.length : ℤ) pages ?_
    intro i hi
    rw [hnum i hi]
    ring
  refine ⟨he, ?_⟩
  rw [he]
  have hc := sepJoin_countP (pages.map add_page_to_document) ?_
  · rw [hc]; simp
  · intro x hx e hex
    rcases List.mem_map.mp hx with ⟨pg, _, rfl⟩
    exact add_page_no_break pg e hex

/-- Witness for C2 on a concrete two-page document (first page one word,
second page empty). -/
theorem create_document_page_structure_witness :
    create_document
          [⟨0, [⟨"hi", 1, 2, 3, 4, "Helvetica", 10⟩], [], 612, 792, true, false⟩,
            ⟨1, [], [], 612, 792, false, false⟩] =
        sepJoin [DocxElem.pageBreak]
          ([⟨0, [⟨"hi", 1, 2, 3, 4, "Helvetica", 10⟩], [], 612, 792, true, false⟩,
            ⟨1, [], [], 612, 792, false, false⟩].map add_page_to_document) ∧
      (create_document
          [⟨0, [⟨"hi", 1, 2, 3, 4, "Helvetica", 10⟩], [], 612, 792, true, false⟩,
            ⟨1, [], [], 612, 792, false, false⟩]).countP isPageBreak =
        [⟨0, [⟨"hi", 1, 2, 3, 4, "Helvetica", 10⟩], [], 612, 792, true, false⟩,
          (⟨1, [], [], 612, 792, false, false⟩ : PDFPage)].length - 1 :=
  create_document_page_structure
    [⟨0, [⟨"hi", 1, 2, 3, 4, "Helvetica", 10⟩], [], 612, 792, true, false⟩,
      ⟨1, [], [], 612, 792, false, false⟩]
    (List.cons_ne_nil _ _)
    (by
      intro i hi
      simp only [List.length_cons, List.length_nil] at hi
      interval_cases i <;> rfl)
end Pdf2Editable
